import Mathlib

set_option maxHeartbeats 1000000
set_option maxRecDepth 4096

/-!
Verification of the artifact rendering + reconciliation engine:
`scripts/render-artifacts.py`, `scripts/reconcile-infisical.py` and
`scripts/reconcile-supabase.py`.

Python/JSON values are modelled by `Val`.  A Python expression that can raise
an exception (`d[key]` on a missing key, `.get` on a non-dict, iterating a
non-iterable, `str.join` over non-strings, comparing a non-number to a
number) is modelled in `Option`, `none` standing for the raised exception.
Integers model JSON numbers; the policy documents in this repository carry
no floats.
-/

inductive Val : Type where
  | str : String → Val
  | int : Int → Val
  | bool : Bool → Val
  | null : Val
  | list : List Val → Val
  | dict : List (String × Val) → Val

/-- First match in an association list (the dicts built by these scripts have
distinct keys, so first match is the dict lookup). -/
def lookupKey : List (String × Val) → String → Option Val
  | [], _ => none
  | (k, v) :: rest, key => if k = key then some v else lookupKey rest key

/-- `d[key]`: `some` only when `d` is a dict containing `key`; anything else
raises (KeyError / TypeError). -/
def Val.getItem : Val → String → Option Val
  | .dict entries, key => lookupKey entries key
  | _, _ => none

/-- `d.get(key, default)` on a value already known to be a dict: total. -/
def dictGet (entries : List (String × Val)) (key : String) (dflt : Val) : Val :=
  (lookupKey entries key).getD dflt

/-- `d.get(key, default)`: `none` when `d` is not a dict (AttributeError). -/
def Val.getD : Val → String → Val → Option Val
  | .dict entries, key, dflt => some (dictGet entries key dflt)
  | _, _, _ => none

/-- Python truthiness, as used by `if not x`. -/
def Val.truthy : Val → Bool
  | .str s => s != ""
  | .int n => n != 0
  | .bool b => b
  | .null => false
  | .list l => !l.isEmpty
  | .dict d => !d.isEmpty

/-- `for x in v`: lists yield elements, dicts their keys, strings their
characters; other values raise TypeError. -/
def pyIter : Val → Option (List Val)
  | .list l => some l
  | .dict d => some (d.map (fun kv => Val.str kv.1))
  | .str s => some (s.toList.map (fun c => Val.str (String.singleton c)))
  | _ => none

/-- `d.items()`: only dicts have it. -/
def pyItems : Val → Option (List (String × Val))
  | .dict d => some d
  | _ => none

/-- A value usable where CPython requires a `str` (e.g. in `' '.join`). -/
def asStr : Val → Option String
  | .str s => some s
  | _ => none

/-- `' '.join(cmd)`: raises TypeError unless every element is a string. -/
def pyJoin (l : List Val) : Option String :=
  (l.mapM asStr).map (String.intercalate " ")

/-! String primitives on character lists (the byte-position-based versions in
core do not reduce in the kernel; these are the textbook definitions). -/

/-- `needle` occurs at the start of `hay`. -/
def charsStartWith : List Char → List Char → Bool
  | [], _ => true
  | _ :: _, [] => false
  | a :: as, b :: bs => a == b && charsStartWith as bs

/-- `needle` occurs at the end of `hay`. -/
def charsEndWith (needle hay : List Char) : Bool :=
  charsStartWith needle.reverse hay.reverse

/-- Lexicographic (code-point) comparison of two character lists. -/
def charsLe : List Char → List Char → Bool
  | [], _ => true
  | _ :: _, [] => false
  | a :: as, b :: bs =>
    if a < b then true
    else if b < a then false
    else charsLe as bs

/-- Python's `s.startswith(pre)`. -/
def strStartsWith (pre s : String) : Bool :=
  charsStartWith pre.toList s.toList

/-- Python's `needle in hay` substring test. -/
def strContains (needle hay : String) : Bool :=
  go needle.toList hay.toList
where
  go (n : List Char) : List Char → Bool
    | [] => charsStartWith n []
    | c :: rest => charsStartWith n (c :: rest) || go n rest

mutual
/-- Python `repr`, close enough for the scalar-free corners where these
scripts format a container into a string (no claim evaluates it there). -/
def pyRepr : Val → String
  | .str s => "'" ++ s ++ "'"
  | .int n => toString n
  | .bool b => if b then "True" else "False"
  | .null => "None"
  | .list l => "[" ++ String.intercalate ", " (pyReprList l) ++ "]"
  | .dict d => "\x7b" ++ String.intercalate ", " (pyReprEntries d) ++ "\x7d"

def pyReprList : List Val → List String
  | [] => []
  | v :: rest => pyRepr v :: pyReprList rest

def pyReprEntries : List (String × Val) → List String
  | [] => []
  | (k, v) :: rest => ("'" ++ k ++ "': " ++ pyRepr v) :: pyReprEntries rest
end

/-- Python `str()`, as interpolated by f-strings. -/
def pyStr : Val → String
  | .str s => s
  | v => pyRepr v

/-! ## JSON serialization (`json.dumps`, default `ensure_ascii`) -/

def hexDigit (n : Nat) : Char :=
  if n < 10 then Char.ofNat (48 + n) else Char.ofNat (87 + n)

def hex4 (n : Nat) : String :=
  String.mk [hexDigit (n / 4096 % 16), hexDigit (n / 256 % 16),
             hexDigit (n / 16 % 16), hexDigit (n % 16)]

def jsonEscapeChar (c : Char) : String :=
  if c = '\\' then "\\\\"
  else if c = '\"' then "\\\""
  else if c = '\n' then "\\n"
  else if c = '\t' then "\\t"
  else if c = '\r' then "\\r"
  else if c.toNat = 8 then "\\b"
  else if c.toNat = 12 then "\\f"
  else if c.toNat < 32 ∨ 127 ≤ c.toNat then
    if 65536 ≤ c.toNat then
      let u := c.toNat - 65536
      "\\u" ++ hex4 (55296 + u / 1024) ++ "\\u" ++ hex4 (56320 + u % 1024)
    else "\\u" ++ hex4 c.toNat
  else String.singleton c

def jsonQuote (s : String) : String :=
  "\"" ++ String.join (s.toList.map jsonEscapeChar) ++ "\""

mutual
/-- `json.dumps(v)` with the default separators. -/
def jsonDumps : Val → String
  | .str s => jsonQuote s
  | .int n => toString n
  | .bool b => if b then "true" else "false"
  | .null => "null"
  | .list l => "[" ++ String.intercalate ", " (jsonDumpsList l) ++ "]"
  | .dict d => "\x7b" ++ String.intercalate ", " (jsonDumpsEntries d) ++ "\x7d"

def jsonDumpsList : List Val → List String
  | [] => []
  | v :: rest => jsonDumps v :: jsonDumpsList rest

def jsonDumpsEntries : List (String × Val) → List String
  | [] => []
  | (k, v) :: rest => (jsonQuote k ++ ": " ++ jsonDumps v) :: jsonDumpsEntries rest
end

def pad (lvl : Nat) : String := String.join (List.replicate lvl "  ")

mutual
/-- `json.dumps(v, indent=2)`, used for the two platform manifest files. -/
def jsonIndent (lvl : Nat) : Val → String
  | .list [] => "[]"
  | .dict [] => "\x7b\x7d"
  | .list l =>
    "[\n" ++ String.intercalate ",\n" (jsonIndentList (lvl + 1) l) ++ "\n" ++ pad lvl ++ "]"
  | .dict d =>
    "\x7b\n" ++ String.intercalate ",\n" (jsonIndentEntries (lvl + 1) d) ++ "\n" ++ pad lvl ++ "\x7d"
  | v => jsonDumps v

def jsonIndentList (lvl : Nat) : List Val → List String
  | [] => []
  | v :: rest => (pad lvl ++ jsonIndent lvl v) :: jsonIndentList lvl rest

def jsonIndentEntries (lvl : Nat) : List (String × Val) → List String
  | [] => []
  | (k, v) :: rest => (pad lvl ++ jsonQuote k ++ ": " ++ jsonIndent lvl v) :: jsonIndentEntries lvl rest
end

/-! ## `write_yaml` of render-artifacts.py: the minimal YAML emitter -/

def Val.isContainer : Val → Bool
  | .dict _ => true
  | .list _ => true
  | _ => false

/-- Scalar rendering inside `emit`: `json.dumps` for str/bool/None, `str()`
(the f-string) for everything else. -/
def emitScalar : Val → String
  | .str s => jsonDumps (.str s)
  | .bool b => jsonDumps (.bool b)
  | .null => jsonDumps .null
  | v => pyStr v

mutual
/-- `emit(val, indent)` of `write_yaml`. -/
def emit (indent : Nat) : Val → String
  | .dict entries => String.intercalate "\n" (emitEntries indent entries)
  | .list items => String.intercalate "\n" (emitItems indent items)
  | v => pad indent ++ pyStr v

def emitEntries (indent : Nat) : List (String × Val) → List String
  | [] => []
  | (k, v) :: rest =>
    (if v.isContainer then [pad indent ++ k ++ ":", emit (indent + 1) v]
     else [pad indent ++ k ++ ": " ++ emitScalar v]) ++ emitEntries indent rest

def emitItems (indent : Nat) : List Val → List String
  | [] => []
  | v :: rest =>
    (if v.isContainer then [pad indent ++ "-", emit (indent + 1) v]
     else [pad indent ++ "- " ++ emitScalar v]) ++ emitItems indent rest
end

/-- One `path.write_text` performed by the renderer: the file name, the
structured object it serialized, and the written bytes. -/
structure FileWrite where
  name : String
  obj : Val
  bytes : String

/-- `write_yaml(path, obj)`: serializes `obj` and writes it with a final
newline. -/
def write_yaml (name : String) (obj : Val) : FileWrite :=
  ⟨name, obj, emit 0 obj ++ "\n"⟩

/-! ## `main` of render-artifacts.py

The journal, vercel and supabase policy documents are the values `opa_eval`
returned (the policy engine is an external collaborator).  Rendering is a
sequence of file writes; when a lookup raises, the writes made so far stay
on disk and rendering stops (the uncaught exception aborts `main`). -/

/-- The body of the `for role in project_roles` loop: one `ProjectRole`
artifact per role.  `role['slug']`, `role['name']`, `role['permissions']`
raise when absent or when `role` is not a dict. -/
def roleStep (role : Val) (acc : List FileWrite) : List FileWrite × Bool :=
  match role with
  | .dict e =>
    match lookupKey e "slug", lookupKey e "name", lookupKey e "permissions" with
    | some slug, some name, some perms =>
      (acc ++ [write_yaml ("ProjectRole_" ++ pyStr slug ++ ".yaml") (.dict
        [("apiVersion", .str "infisical.verlyn13.dev/v1"),
         ("kind", .str "ProjectRole"),
         ("metadata", .dict [("name", name), ("slug", slug)]),
         ("spec", .dict [("permissions", perms)])])], true)
    | _, _, _ => (acc, false)
  | _ => (acc, false)

/-- The body of the `for ident in identities` loop: the identity artifact is
written first; the binding write only happens if `ident.get('permissions', {})`
is a dict (`.get` on a non-dict raises after the identity file exists). -/
def identitySteps (ident : Val) (acc : List FileWrite) : List FileWrite × Bool :=
  match ident with
  | .dict e =>
    match lookupKey e "name" with
    | none => (acc, false)
    | some name =>
      let acc1 := acc ++ [write_yaml ("identity_" ++ pyStr name ++ ".yaml") (.dict
        [("apiVersion", .str "infisical.verlyn13.dev/v1"),
         ("kind", .str "MachineIdentity"),
         ("metadata", .dict [("name", name),
                             ("labels", .dict [("env", dictGet e "env" .null)])]),
         ("spec", .dict [("project_role", dictGet e "project_role" .null),
                         ("auth", dictGet e "auth" (.dict []))])])]
      match dictGet e "permissions" (.dict []) with
      | .dict pe =>
        (acc1 ++ [write_yaml ("binding_" ++ pyStr name ++ ".yaml") (.dict
          [("apiVersion", .str "infisical.verlyn13.dev/v1"),
           ("kind", .str "ProjectBinding"),
           ("metadata", .dict [("identity", name),
                               ("environment", dictGet e "env" .null)]),
           ("spec", .dict [("project_role", dictGet e "project_role" .null),
                           ("permissions", .dict
                             [("read_paths", dictGet pe "read_paths" (.list [])),
                              ("write_paths", dictGet pe "write_paths" (.list []))])])])],
         true)
      | _ => (acc1, false)
  | _ => (acc, false)

/-- A render loop: processes elements in order, stopping at the first raised
exception with the writes made so far. -/
def renderLoop (step : Val → List FileWrite → List FileWrite × Bool) :
    List Val → List FileWrite → List FileWrite × Bool
  | [], acc => (acc, true)
  | v :: rest, acc =>
    match step v acc with
    | (acc2, true) => renderLoop step rest acc2
    | (acc2, false) => (acc2, false)

/-- The artifact-writing part of `main`: `journal['identities']` (raising),
`journal.get('project_roles', [])`, the roles loop, then the identities
loop. -/
def renderJournalWrites (journal : Val) : List FileWrite × Bool :=
  match journal with
  | .dict e =>
    match lookupKey e "identities" with
    | none => ([], false)
    | some identities =>
      match pyIter (dictGet e "project_roles" (.list [])) with
      | none => ([], false)
      | some roles =>
        match renderLoop roleStep roles [] with
        | (acc, false) => (acc, false)
        | (acc, true) =>
          match pyIter identities with
          | none => (acc, false)
          | some idents => renderLoop identitySteps idents acc
  | _ => ([], false)

/-- All of `main`'s writes: the YAML artifacts, then `vercel-env.json` and
`supabase-config.json` (each `json.dumps(v, indent=2) + '\n'`). -/
def renderWrites (journal vercel supabase : Val) : List FileWrite × Bool :=
  match renderJournalWrites journal with
  | (ws, false) => (ws, false)
  | (ws, true) =>
    (ws ++ [⟨"vercel-env.json", vercel, jsonIndent 0 vercel ++ "\n"⟩,
            ⟨"supabase-config.json", supabase, jsonIndent 0 supabase ++ "\n"⟩], true)

/-- The YAML artifact set of a successful render, as `(file name, object)`
pairs in write order; `none` when rendering raises. -/
def renderArtifacts (journal : Val) : Option (List (String × Val)) :=
  match renderJournalWrites journal with
  | (ws, true) => some (ws.map fun w => (w.name, w.obj))
  | (_, false) => none

/-! ## The artifact store: `.out/<project>/` as a map from file name to bytes -/

def Store : Type := String → Option String

/-- `path.write_text(bytes)`: overwrite whatever was at that name. -/
def storeWrite (s : Store) (w : FileWrite) : Store :=
  fun k => if k = w.name then some w.bytes else s k

def applyWrites (s : Store) (ws : List FileWrite) : Store :=
  ws.foldl storeWrite s

/-- One render invocation against the store: every write `main` performs, in
order (on failure, the writes made before the exception). -/
def renderStore (journal vercel supabase : Val) (s : Store) : Store :=
  applyWrites s (renderWrites journal vercel supabase).1

/-! ## reconcile-infisical.py: `InfisicalReconciler`

Each `apply_*` method is a try-block: the accesses before the
`if not self.dry_run:` guard (the "head") run in both modes; the command
construction (the accesses inside the guard and the `' '.join`) runs only in
apply mode.  Any exception is caught at the resource boundary and recorded
into `failed`. -/

structure RState where
  applied : List String
  failed : List String
deriving DecidableEq, Repr

namespace InfisicalReconciler

/-- `apply_project_role` up to the dry-run guard: `role['metadata']['name']`
and `role['metadata'].get('environment', 'all')`. -/
def roleHead (v : Val) : Option Val := do
  let meta ← v.getItem "metadata"
  let name ← meta.getItem "name"
  let _ ← meta.getD "environment" (.str "all")
  pure name

/-- The command construction of `apply_project_role`:
`role['spec']['permissions']` and the `' '.join(cmd)` of the printed CMD
line (TypeError unless every element is a string). -/
def roleCmd (project : String) (roleName : Val) (v : Val) : Option String := do
  let specv ← v.getItem "spec"
  let perms ← specv.getItem "permissions"
  pyJoin [.str "infisical", .str "roles", .str "create", .str "--name", roleName,
          .str "--project", .str project, .str "--permissions", .str (jsonDumps perms)]

def apply_project_role (project : String) (dryRun : Bool) (fname : String) (v : Val)
    (st : RState) : RState :=
  match roleHead v with
  | none => ⟨st.applied, st.failed ++ ["ProjectRole/" ++ fname]⟩
  | some roleName =>
    if dryRun then ⟨st.applied ++ ["ProjectRole/" ++ pyStr roleName], st.failed⟩
    else
      match roleCmd project roleName v with
      | none => ⟨st.applied, st.failed ++ ["ProjectRole/" ++ fname]⟩
      | some _ => ⟨st.applied ++ ["ProjectRole/" ++ pyStr roleName], st.failed⟩

/-- `apply_identity` up to the dry-run guard: `identity['metadata']['name']`
and `identity['spec']['environment']`. -/
def identHead (v : Val) : Option (Val × Val) := do
  let meta ← v.getItem "metadata"
  let name ← meta.getItem "name"
  let specv ← v.getItem "spec"
  let envv ← specv.getItem "environment"
  pure (name, envv)

/-- The command construction of `apply_identity`: `identity['spec']['type']`
and the join. -/
def identCmd (project : String) (name envv : Val) (v : Val) : Option String := do
  let specv ← v.getItem "spec"
  let ty ← specv.getItem "type"
  pyJoin [.str "infisical", .str "identities", .str "create", .str "--name", name,
          .str "--type", ty, .str "--project", .str project, .str "--environment", envv]

def apply_identity (project : String) (dryRun : Bool) (fname : String) (v : Val)
    (st : RState) : RState :=
  match identHead v with
  | none => ⟨st.applied, st.failed ++ ["MachineIdentity/" ++ fname]⟩
  | some (name, envv) =>
    if dryRun then ⟨st.applied ++ ["MachineIdentity/" ++ pyStr name], st.failed⟩
    else
      match identCmd project name envv v with
      | none => ⟨st.applied, st.failed ++ ["MachineIdentity/" ++ fname]⟩
      | some _ => ⟨st.applied ++ ["MachineIdentity/" ++ pyStr name], st.failed⟩

/-- `apply_binding` up to the dry-run guard: `binding['metadata']['name']`,
`binding['spec']['identity']`, `binding['spec']['role']`. -/
def bindHead (v : Val) : Option (Val × Val × Val) := do
  let meta ← v.getItem "metadata"
  let name ← meta.getItem "name"
  let specv ← v.getItem "spec"
  let identity ← specv.getItem "identity"
  let role ← specv.getItem "role"
  pure (name, identity, role)

/-- The command construction of `apply_binding`: iterate
`binding['spec']['paths']` and join one command per path. -/
def bindCmds (project : String) (identity role : Val) (v : Val) : Option (List String) := do
  let specv ← v.getItem "spec"
  let paths ← specv.getItem "paths"
  let items ← pyIter paths
  items.mapM fun p =>
    pyJoin [.str "infisical", .str "bindings", .str "create", .str "--identity", identity,
            .str "--role", role, .str "--path", p, .str "--project", .str project]

def apply_binding (project : String) (dryRun : Bool) (fname : String) (v : Val)
    (st : RState) : RState :=
  match bindHead v with
  | none => ⟨st.applied, st.failed ++ ["IdentityBinding/" ++ fname]⟩
  | some (name, identity, role) =>
    if dryRun then ⟨st.applied ++ ["IdentityBinding/" ++ pyStr name], st.failed⟩
    else
      match bindCmds project identity role v with
      | none => ⟨st.applied, st.failed ++ ["IdentityBinding/" ++ fname]⟩
      | some _ => ⟨st.applied ++ ["IdentityBinding/" ++ pyStr name], st.failed⟩

/-- `Path.glob(pre + "*.yaml")` membership for a file name in the artifacts
directory. -/
def globMatch (pre suf name : String) : Bool :=
  charsStartWith pre.toList name.toList
    && charsEndWith suf.toList (List.drop pre.toList.length name.toList)

/-- `sorted(...)` compares the `Path`s, which for files of one directory is
lexicographic comparison of the file names. -/
def fileLe (a b : String × Val) : Prop := charsLe a.1.toList b.1.toList = true

instance : DecidableRel fileLe :=
  fun a b => inferInstanceAs (Decidable (charsLe a.1.toList b.1.toList = true))

/-- `sorted(self.artifacts_dir.glob(pre + "*.yaml"))`. -/
def stageFiles (pre : String) (files : List (String × Val)) : List (String × Val) :=
  List.insertionSort fileLe (files.filter fun f => globMatch pre ".yaml" f.1)

def runStage (step : String → Val → RState → RState) (files : List (String × Val))
    (st : RState) : RState :=
  files.foldl (fun s f => step f.1 f.2 s) st

/-- `InfisicalReconciler.reconcile()`.  The artifacts directory is `none`
when it does not exist (early `return False`); otherwise its files as
`(name, parsed content)` pairs.  Returns the final accumulators and the
boolean result (`False` iff `self.failed` is non-empty). -/
def reconcile (project : String) (dryRun : Bool) (dir : Option (List (String × Val))) :
    RState × Bool :=
  match dir with
  | none => (⟨[], []⟩, false)
  | some files =>
    let st1 := runStage (apply_project_role project dryRun) (stageFiles "ProjectRole_" files) ⟨[], []⟩
    let st2 := runStage (apply_identity project dryRun) (stageFiles "identity_" files) st1
    let st3 := runStage (apply_binding project dryRun) (stageFiles "binding_" files) st2
    (st3, st3.failed.isEmpty)

inductive StageKind : Type where
  | role | identity | binding
deriving DecidableEq, Repr

/-- The order in which `reconcile` visits resources: the three stage lists it
folds over, in stage order, tagged with their stage. -/
def reconcileTrace (files : List (String × Val)) : List (StageKind × String) :=
  (stageFiles "ProjectRole_" files).map (fun f => (StageKind.role, f.1))
    ++ (stageFiles "identity_" files).map (fun f => (StageKind.identity, f.1))
    ++ (stageFiles "binding_" files).map (fun f => (StageKind.binding, f.1))

end InfisicalReconciler

/-! ## reconcile-supabase.py: `SupabaseReconciler`

The manifest is the parsed `supabase-config.json` (`none` when the file is
absent).  Each stage function returns `Option Bool`: `some` the Python return
value, `none` a raised exception (caught per stage by `reconcile`). -/

namespace SupabaseReconciler

/-- `jwt_exp > 86400`: int/bool compare with an int, anything else raises
TypeError. -/
def pyGtInt : Val → Int → Option Bool
  | .int n, k => some (k < n)
  | .bool b, k => some (k < (if b then (1 : Int) else 0))
  | _, _ => none

/-- `validate_jwt_config`. -/
def validate_jwt_config (config : Val) : Option Bool := do
  let auth ← config.getD "auth" (.dict [])
  let jwtSecret ← auth.getD "jwt_secret" .null
  if !jwtSecret.truthy then pure false
  else do
    let jwtExp ← auth.getD "jwt_exp" (.int 0)
    let tooLong ← pyGtInt jwtExp 86400
    if tooLong then pure false else pure true

/-- `apply_auth_settings`.  In apply mode the truthy `jwt_secret` reference
must be a string (`.startswith`) and `providers` must be iterable. -/
def apply_auth_settings (dryRun : Bool) (config : Val) : Option Bool := do
  let ok ← validate_jwt_config config
  if !ok then pure false
  else do
    let auth ← config.getD "auth" (.dict [])
    if !dryRun then do
      let ref ← auth.getD "jwt_secret" .null
      if ref.truthy then do
        let _ ← asStr ref
        let providers ← auth.getD "providers" (.list [])
        let _ ← pyIter providers
        pure true
      else do
        let providers ← auth.getD "providers" (.list [])
        let _ ← pyIter providers
        pure true
    else pure true

/-- `apply_database_settings`: the RLS gate, then (apply mode) the per-table
ALTER TABLE statements for `db.get('schema', 'public')`. -/
def apply_database_settings (dryRun : Bool) (config : Val) : Option Bool := do
  let db ← config.getD "database" (.dict [])
  let rls ← db.getD "rls_enforced" (.bool true)
  if !rls.truthy then pure false
  else
    if !dryRun then do
      let _schema ← db.getD "schema" (.str "public")
      pure true
    else pure true

/-- The `for key, value in public_env.items()` loop of
`apply_environment_variables`.  Besides the Python return value it records
the keys that reach the "Setting" branch (the applied keys). -/
def envLoop : List (String × Val) → Bool × List String
  | [] => (true, [])
  | (key, _value) :: rest =>
    if strContains "SUPABASE_SERVICE_KEY" key then (false, [])
    else if strStartsWith "NEXT_PUBLIC_SUPABASE_" key then
      let r := envLoop rest
      (r.1, key :: r.2)
    else envLoop rest

/-- `apply_environment_variables`: the stage result and the applied keys. -/
def apply_environment_variables (config : Val) : Option (Bool × List String) := do
  let env ← config.getD "environment" (.dict [])
  let pub ← env.getD "public" (.dict [])
  let entries ← pyItems pub
  pure (envLoop entries)

/-- `apply_edge_functions`: deploys whatever `supabase/functions/<project>`
holds (`none`: no directory) and always returns True. -/
def apply_edge_functions (_dryRun : Bool) (_edgeDir : Option (List String)) : Option Bool :=
  some true

/-- The per-step `try`/`except` of `reconcile`: an exception records the step
as failed. -/
def stepResult : Option Bool → Bool
  | some b => b
  | none => false

/-- The `results` dict of `reconcile`: all four steps are run unconditionally,
in this order. -/
def reconcileStages (dryRun : Bool) (config : Val) (edgeDir : Option (List String)) :
    List (String × Bool) :=
  [("Authentication", stepResult (apply_auth_settings dryRun config)),
   ("Database", stepResult (apply_database_settings dryRun config)),
   ("Environment", stepResult ((apply_environment_variables config).map Prod.fst)),
   ("Edge Functions", stepResult (apply_edge_functions dryRun edgeDir))]

/-- `SupabaseReconciler.reconcile()`: aborts before any stage when the
manifest is absent; otherwise runs the four stages and succeeds iff
`all(results.values())`. -/
def reconcile (dryRun : Bool) (manifest : Option Val) (edgeDir : Option (List String)) :
    List (String × Bool) × Bool :=
  match manifest with
  | none => ([], false)
  | some config =>
    let results := reconcileStages dryRun config edgeDir
    (results, results.all (fun r => r.2))

/-- `main`: `sys.exit(0 if success else 1)`. -/
def mainExit (dryRun : Bool) (manifest : Option Val) (edgeDir : Option (List String)) : Nat :=
  if (reconcile dryRun manifest edgeDir).2 then 0 else 1

end SupabaseReconciler

/-! ## Remaining definitions used by the verification -/

/-- The bytes of the last write of `k` in a write sequence, if any. -/
def lastWrite : List FileWrite → String → Option String
  | [], _ => none
  | w :: ws, k =>
    match lastWrite ws k with
    | some v => some v
    | none => if k = w.name then some w.bytes else none

namespace InfisicalReconciler

/-- The command construction is the only part of `apply_project_role` that
apply mode runs and dry-run mode skips; this predicate says it cannot raise
(vacuously true when the shared head already raises in both modes). -/
def roleApplyOk (project : String) (v : Val) : Bool :=
  match roleHead v with
  | none => true
  | some name => (roleCmd project name v).isSome

/-- Same for `apply_identity`. -/
def identApplyOk (project : String) (v : Val) : Bool :=
  match identHead v with
  | none => true
  | some (name, envv) => (identCmd project name envv v).isSome

/-- Same for `apply_binding`. -/
def bindApplyOk (project : String) (v : Val) : Bool :=
  match bindHead v with
  | none => true
  | some (_name, identity, role) => (bindCmds project identity role v).isSome

end InfisicalReconciler

/-! ## Concrete policy inputs named by the claims -/

/-- The role `{slug: "viewer", name: "Viewer", permissions: {read: ["*"]}}`. -/
def roleC2 : Val := .dict [("slug", .str "viewer"), ("name", .str "Viewer"),
  ("permissions", .dict [("read", .list [.str "*"])])]

/-- The identity `{name: "ci-bot", env: "prod", project_role: "viewer",
permissions: {read_paths: ["/app/*"], write_paths: []}}`. -/
def identC2 : Val := .dict [("name", .str "ci-bot"), ("env", .str "prod"),
  ("project_role", .str "viewer"),
  ("permissions", .dict [("read_paths", .list [.str "/app/*"]), ("write_paths", .list [])])]

/-- The journal holding exactly `roleC2` and `identC2`. -/
def journalC2 : Val := .dict [("project_roles", .list [roleC2]), ("identities", .list [identC2])]

/-- The entries of an identity whose `project_role` slug ("missing") names no
role in the same render pass. -/
def identC1e : List (String × Val) := [("name", .str "ci-bot"), ("env", .str "prod"),
  ("project_role", .str "missing")]

/-- A journal with no roles and one identity with a dangling `project_role`. -/
def journalC1 : Val := .dict [("identities", .list [.dict identC1e])]

/-- One binding artifact with `metadata.name`, `spec.identity` and
`spec.role` but no `spec.paths`. -/
def files3 : List (String × Val) := [("binding_b.yaml", .dict
  [("metadata", .dict [("name", .str "b")]),
   ("spec", .dict [("identity", .str "i"), ("role", .str "r")])])]

/-- A well-typed artifact directory in the shapes `reconcile-infisical.py`
itself reads: used to witness the dry-run/apply agreement. -/
def filesW : List (String × Val) :=
  [("ProjectRole_r1.yaml", .dict
     [("metadata", .dict [("name", .str "r1")]),
      ("spec", .dict [("permissions", .dict [("read", .list [.str "*"])])])]),
   ("identity_i1.yaml", .dict
     [("metadata", .dict [("name", .str "i1")]),
      ("spec", .dict [("environment", .str "prod"), ("type", .str "machine")])]),
   ("binding_b1.yaml", .dict
     [("metadata", .dict [("name", .str "b1")]),
      ("spec", .dict [("identity", .str "i1"), ("role", .str "r1"),
                      ("paths", .list [.str "/app"])])])]

/-- environment.public with a public key listed before a service-key marker
key. -/
def manifest4 : Val := .dict [("environment", .dict [("public", .dict
  [("NEXT_PUBLIC_SUPABASE_URL", .str "u"), ("SUPABASE_SERVICE_KEY", .str "k")])])]

/-- A manifest for the environment-stage witness: one applied key, one
skipped key, no marker. -/
def manifest4W : Val := .dict [("environment", .dict [("public", .dict
  [("NEXT_PUBLIC_SUPABASE_URL", .str "u"), ("RANDOM_VAR", .str "x")])])]

/-- auth with a `jwt_secret` key that is present but empty. -/
def manifest5 : Val := .dict [("auth", .dict [("jwt_secret", .str ""), ("jwt_exp", .int 0)])]

/-- auth at the passing JWT boundary. -/
def manifest5a : Val := .dict [("auth", .dict
  [("jwt_secret", .str "$\x7bJWT_SECRET\x7d"), ("jwt_exp", .int 86400)])]

/-- auth just over the JWT boundary. -/
def manifest5b : Val := .dict [("auth", .dict
  [("jwt_secret", .str "$\x7bJWT_SECRET\x7d"), ("jwt_exp", .int 86401)])]

/-- database with `rls_enforced` set to the integer 0 (falsy, but not the
boolean false). -/
def manifest10 : Val := .dict [("database", .dict [("rls_enforced", .int 0)])]

/-! # Theorems -/

theorem applyWrites_apply (ws : List FileWrite) (s : Store) (k : String) :
    applyWrites s ws k = match lastWrite ws k with
      | some v => some v
      | none => s k := by
  induction ws generalizing s with
  | nil => rfl
  | cons w rest ih =>
    show applyWrites (storeWrite s w) rest k = _
    rw [ih]
    cases h : lastWrite rest k with
    | some v => simp [lastWrite, h]
    | none =>
      simp only [lastWrite, h, storeWrite]
      by_cases hk : k = w.name <;> simp [hk]

/-- Claim C9: rendering is deterministic and idempotent against the artifact
store: a second render from the same policy documents (journal, vercel,
supabase values) performs the same write sequence, overwriting the first
render's files with byte-identical content, so the store maps every file
name to the same bytes after the second render as after the first. -/
theorem C9_render_idempotent (journal vercel supabase : Val) (s : Store) (k : String) :
    renderStore journal vercel supabase (renderStore journal vercel supabase s) k
      = renderStore journal vercel supabase s k := by
  simp only [renderStore]
  rw [applyWrites_apply, applyWrites_apply (s := s)]
  cases h : lastWrite (renderWrites journal vercel supabase).1 k with
  | some v => simp
  | none => simp

open SupabaseReconciler in
/-- Claim C6: the Supabase reconciliation evaluates each of the four stages
(Authentication, Database, Environment, Edge Functions) unconditionally even
when an earlier stage fails or raises; it succeeds (exit code 0) iff the
manifest is present and all four stage results are true; an absent manifest
yields exit code 1 with no stage run. -/
theorem C6_four_stages (d : Bool) (cfg : Val) (edgeDir : Option (List String)) :
    SupabaseReconciler.reconcile d none edgeDir = ([], false)
    ∧ (SupabaseReconciler.reconcile d (some cfg) edgeDir).1
        = [("Authentication", stepResult (apply_auth_settings d cfg)),
           ("Database", stepResult (apply_database_settings d cfg)),
           ("Environment", stepResult ((apply_environment_variables cfg).map Prod.fst)),
           ("Edge Functions", stepResult (apply_edge_functions d edgeDir))]
    ∧ ((SupabaseReconciler.reconcile d (some cfg) edgeDir).2 = true
        ↔ ∀ r ∈ (SupabaseReconciler.reconcile d (some cfg) edgeDir).1, r.2 = true)
    ∧ (mainExit d (some cfg) edgeDir = 0
        ↔ (SupabaseReconciler.reconcile d (some cfg) edgeDir).2 = true)
    ∧ mainExit d none edgeDir = 1 := by
  refine ⟨rfl, rfl, ?_, ?_, rfl⟩
  · simp [SupabaseReconciler.reconcile, List.all_eq_true]
  · simp only [SupabaseReconciler.mainExit]
    cases h : (SupabaseReconciler.reconcile d (some cfg) edgeDir).2 <;> simp [h]

/-- Claim C2 (actual behavior at the claimed input): rendering the viewer
role and ci-bot identity produces exactly the three claimed artifact files,
but the dry-run reconciliation over those rendered files applies only
`ProjectRole/Viewer` and fails both the identity and the binding: the
reconciler reads `spec.environment`, `spec.type`, `metadata.name`,
`spec.identity`, `spec.role` — fields the renderer never emits.  (The
reconciler parses the YAML files back; the model hands it the rendered
objects, which agree with the parsed files on every field this run reads.) -/
theorem C2_render_reconcile_mismatch :
    (renderArtifacts journalC2).map (List.map Prod.fst)
      = some ["ProjectRole_viewer.yaml", "identity_ci-bot.yaml", "binding_ci-bot.yaml"]
    ∧ InfisicalReconciler.reconcile "journal" true (renderArtifacts journalC2)
      = (⟨["ProjectRole/Viewer"],
          ["MachineIdentity/identity_ci-bot.yaml", "IdentityBinding/binding_ci-bot.yaml"]⟩,
         false) := by
  constructor
  · rfl
  · decide

/-- Claim C1 (counterexample): on a journal whose only identity references
the role slug "missing" while the pass renders no role at all, rendering
succeeds (no RenderError of any kind) and emits the binding artifact, with
the dangling slug copied into its `spec.project_role`. -/
theorem C1_counterexample :
    (renderArtifacts journalC1).map (List.map Prod.fst)
      = some ["identity_ci-bot.yaml", "binding_ci-bot.yaml"]
    ∧ (((renderArtifacts journalC1).getD []).lookup "binding_ci-bot.yaml").bind
        (fun v => (v.getItem "spec").bind (fun s => s.getItem "project_role"))
      = some (.str "missing") := ⟨rfl, rfl⟩

/-- Claim C3 (counterexample): on an artifact set holding one binding file
without `spec.paths`, dry-run reports it applied while apply mode reports it
failed — the two modes do not populate `applied`/`failed` identically. -/
theorem C3_counterexample :
    InfisicalReconciler.reconcile "p" true (some files3)
      = (⟨["IdentityBinding/b"], []⟩, true)
    ∧ InfisicalReconciler.reconcile "p" false (some files3)
      = (⟨[], ["IdentityBinding/binding_b.yaml"]⟩, false) := by
  constructor <;> decide

/-- Claim C4 (counterexample): with `NEXT_PUBLIC_SUPABASE_URL` listed before
`SUPABASE_SERVICE_KEY` in `environment.public`, the Environment stage does
fail, but only after the public key has already been applied — not "before
any key is applied". -/
theorem C4_counterexample :
    SupabaseReconciler.apply_environment_variables manifest4
      = some (false, ["NEXT_PUBLIC_SUPABASE_URL"]) := by
  decide

/-- Claim C5 (counterexample): a manifest whose `jwt_secret` key is present
(the empty string) and whose `jwt_exp` is 0 fails JWT validation and the
Authentication stage, although the claimed "fails iff absent or
jwt_exp > 86400" predicts a pass. -/
theorem C5_counterexample :
    ((manifest5.getItem "auth").bind (fun a => a.getItem "jwt_secret")) = some (.str "")
    ∧ SupabaseReconciler.validate_jwt_config manifest5 = some false
    ∧ SupabaseReconciler.apply_auth_settings true manifest5 = some false := by
  refine ⟨rfl, by decide, by decide⟩

/-- Claim C10 (counterexample): `rls_enforced` set to the integer 0 — a
value that is not the boolean false — still fails the Database stage, in
both modes. -/
theorem C10_counterexample :
    ((manifest10.getItem "database").bind (fun d => d.getItem "rls_enforced"))
      = some (.int 0)
    ∧ (Val.int 0 ≠ Val.bool false)
    ∧ SupabaseReconciler.apply_database_settings true manifest10 = some false
    ∧ SupabaseReconciler.apply_database_settings false manifest10 = some false := by
  refine ⟨rfl, fun h => Val.noConfusion h, by decide, by decide⟩

/-- Claim C10 (amended): when `database` (or `rls_enforced`) is absent the
gate defaults to enforced and the stage succeeds; in general the stage
returns the truthiness of the configured value, so it fails exactly when
`rls_enforced` is set to any falsy value (false, 0, null, "", empty
collection), not only the boolean false. -/
theorem C10_rls_default_true (d : Bool) (cfg db r : Val)
    (hdb : cfg.getD "database" (.dict []) = some db)
    (hr : db.getD "rls_enforced" (.bool true) = some r) :
    SupabaseReconciler.apply_database_settings d cfg = some r.truthy := by
  cases db with
  | dict e =>
    simp only [SupabaseReconciler.apply_database_settings, hdb, hr, bind, Option.bind]
    cases hrt : r.truthy with
    | false => simp [hrt]
    | true => cases d <;> simp [hrt, Val.getD]
  | str s => simp [Val.getD] at hr
  | int n => simp [Val.getD] at hr
  | bool b => simp [Val.getD] at hr
  | null => simp [Val.getD] at hr
  | list l => simp [Val.getD] at hr

/-- Witness for C10: a manifest with no `database` section passes the
Database stage (RLS defaults to enforced), even in apply mode. -/
theorem C10_rls_default_true_witness :
    SupabaseReconciler.apply_database_settings false (.dict []) = some true :=
  C10_rls_default_true false (.dict []) (.dict []) (.bool true) rfl rfl

/-- Claim C5 (amended): for a manifest whose auth fields have the expected
types (`jwt_secret` absent — the None default — or a string, `jwt_exp` an
integer, `providers` a list), the Authentication stage returns the
conjunction of the truthiness of the `jwt_secret` reference and
`jwt_exp ≤ 86400`: it fails iff the reference is absent or falsy (e.g. the
empty string) or `jwt_exp > 86400`.  In particular `jwt_exp = 86400` passes
and `jwt_exp = 86401` fails. -/
theorem C5_auth_gate (d : Bool) (cfg auth sv : Val) (e : Int) (provs : List Val)
    (ha : cfg.getD "auth" (.dict []) = some auth)
    (hs : auth.getD "jwt_secret" .null = some sv)
    (hsv : sv = .null ∨ ∃ s, sv = .str s)
    (he : auth.getD "jwt_exp" (.int 0) = some (.int e))
    (hp : auth.getD "providers" (.list []) = some (.list provs)) :
    SupabaseReconciler.apply_auth_settings d cfg
      = some (sv.truthy && decide (e ≤ 86400)) := by
  have hval : SupabaseReconciler.validate_jwt_config cfg
      = some (sv.truthy && decide (e ≤ 86400)) := by
    simp only [SupabaseReconciler.validate_jwt_config, ha, hs, he,
      SupabaseReconciler.pyGtInt, bind, Option.bind]
    cases hsvt : sv.truthy with
    | false => simp
    | true =>
      by_cases hle : e ≤ 86400
      · simp [hle, not_lt.mpr hle]
      · simp [hle, lt_of_not_le hle]
  simp only [SupabaseReconciler.apply_auth_settings, hval, bind, Option.bind]
  cases hsvt : sv.truthy with
  | false => simp
  | true =>
    by_cases hle : e ≤ 86400
    · rcases hsv with rfl | ⟨s, rfl⟩
      · simp [Val.truthy] at hsvt
      · cases d with
        | true => simp [hle, ha, bind, Option.bind]
        | false => simp [hle, ha, hs, hp, asStr, pyIter, hsvt, bind, Option.bind]
    · simp [hle]

/-- Witness for C5: at the JWT boundary, `jwt_exp = 86400` with a present
secret reference passes the Authentication stage, and `jwt_exp = 86401`
fails it. -/
theorem C5_auth_gate_witness :
    SupabaseReconciler.apply_auth_settings true manifest5a = some true
    ∧ SupabaseReconciler.apply_auth_settings true manifest5b = some false :=
  ⟨(C5_auth_gate true manifest5a (.dict
      [("jwt_secret", .str "$\x7bJWT_SECRET\x7d"), ("jwt_exp", .int 86400)])
      (.str "$\x7bJWT_SECRET\x7d") 86400 [] rfl rfl (Or.inr ⟨_, rfl⟩) rfl rfl).trans
      (by decide),
   (C5_auth_gate true manifest5b (.dict
      [("jwt_secret", .str "$\x7bJWT_SECRET\x7d"), ("jwt_exp", .int 86401)])
      (.str "$\x7bJWT_SECRET\x7d") 86401 [] rfl rfl (Or.inr ⟨_, rfl⟩) rfl rfl).trans
      (by decide)⟩

theorem envLoop_spec (l : List (String × Val)) :
    SupabaseReconciler.envLoop l
      = (l.all (fun kv => !strContains "SUPABASE_SERVICE_KEY" kv.1),
         ((l.takeWhile (fun kv => !strContains "SUPABASE_SERVICE_KEY" kv.1)).filter
            (fun kv => strStartsWith "NEXT_PUBLIC_SUPABASE_" kv.1)).map Prod.fst) := by
  induction l with
  | nil => rfl
  | cons kv rest ih =>
    obtain ⟨key, value⟩ := kv
    by_cases h1 : strContains "SUPABASE_SERVICE_KEY" key
    · simp [SupabaseReconciler.envLoop, h1, List.takeWhile]
    · by_cases h2 : strStartsWith "NEXT_PUBLIC_SUPABASE_" key
      · simp [SupabaseReconciler.envLoop, h1, h2, ih, List.takeWhile, List.filter]
      · simp [SupabaseReconciler.envLoop, h1, h2, ih, List.takeWhile, List.filter]

/-- Claim C4 (amended): the Environment stage fails iff some key of
`environment.public` contains the service-key marker, but the failure
happens when the iteration reaches the first such key, not before any key is
applied: exactly the `NEXT_PUBLIC_SUPABASE_`-named keys listed before the
first marker key are applied (keys matching neither rule are skipped with a
warning and do not fail the stage). -/
theorem C4_env_stage (cfg env pub : Val) (entries : List (String × Val))
    (h1 : cfg.getD "environment" (.dict []) = some env)
    (h2 : env.getD "public" (.dict []) = some pub)
    (h3 : pyItems pub = some entries) :
    SupabaseReconciler.apply_environment_variables cfg
      = some (entries.all (fun kv => !strContains "SUPABASE_SERVICE_KEY" kv.1),
         ((entries.takeWhile (fun kv => !strContains "SUPABASE_SERVICE_KEY" kv.1)).filter
            (fun kv => strStartsWith "NEXT_PUBLIC_SUPABASE_" kv.1)).map Prod.fst) := by
  simp [SupabaseReconciler.apply_environment_variables, h1, h2, h3, envLoop_spec,
    bind, Option.bind]

/-- Witness for C4: with `NEXT_PUBLIC_SUPABASE_URL` and `RANDOM_VAR` and no
marker key, the stage succeeds, applies exactly the public key and skips
`RANDOM_VAR`. -/
theorem C4_env_stage_witness :
    SupabaseReconciler.apply_environment_variables manifest4W
      = some (true, ["NEXT_PUBLIC_SUPABASE_URL"]) :=
  (C4_env_stage manifest4W
    (.dict [("public", .dict [("NEXT_PUBLIC_SUPABASE_URL", .str "u"), ("RANDOM_VAR", .str "x")])])
    (.dict [("NEXT_PUBLIC_SUPABASE_URL", .str "u"), ("RANDOM_VAR", .str "x")])
    [("NEXT_PUBLIC_SUPABASE_URL", .str "u"), ("RANDOM_VAR", .str "x")]
    rfl rfl rfl).trans (by decide)

namespace InfisicalReconciler

theorem apply_project_role_modes (p fname : String) (v : Val) (st : RState)
    (h : roleApplyOk p v = true) :
    apply_project_role p true fname v st = apply_project_role p false fname v st := by
  unfold roleApplyOk at h
  unfold apply_project_role
  cases hh : roleHead v with
  | none => rfl
  | some name =>
    simp only [hh] at h
    cases hc : roleCmd p name v with
    | none => rw [hc] at h; simp at h
    | some c => simp [hc]

theorem apply_identity_modes (p fname : String) (v : Val) (st : RState)
    (h : identApplyOk p v = true) :
    apply_identity p true fname v st = apply_identity p false fname v st := by
  unfold identApplyOk at h
  unfold apply_identity
  cases hh : identHead v with
  | none => rfl
  | some nv =>
    obtain ⟨name, envv⟩ := nv
    simp only [hh] at h
    cases hc : identCmd p name envv v with
    | none => rw [hc] at h; simp at h
    | some c => simp [hc]

theorem apply_binding_modes (p fname : String) (v : Val) (st : RState)
    (h : bindApplyOk p v = true) :
    apply_binding p true fname v st = apply_binding p false fname v st := by
  unfold bindApplyOk at h
  unfold apply_binding
  cases hh : bindHead v with
  | none => rfl
  | some nv =>
    obtain ⟨name, identity, role⟩ := nv
    simp only [hh] at h
    cases hc : bindCmds p identity role v with
    | none => rw [hc] at h; simp at h
    | some c => simp [hc]

theorem runStage_congr (step1 step2 : String → Val → RState → RState)
    (files : List (String × Val)) (st : RState)
    (h : ∀ f ∈ files, ∀ s, step1 f.1 f.2 s = step2 f.1 f.2 s) :
    runStage step1 files st = runStage step2 files st := by
  induction files generalizing st with
  | nil => rfl
  | cons f rest ih =>
    show runStage step1 rest (step1 f.1 f.2 st) = runStage step2 rest (step2 f.1 f.2 st)
    rw [h f (List.mem_cons_self f rest) st]
    exact ih _ (fun g hg s => h g (List.mem_cons_of_mem f hg) s)

theorem mem_stageFiles (pre : String) (files : List (String × Val)) (f : String × Val)
    (h : f ∈ stageFiles pre files) : f ∈ files ∧ globMatch pre ".yaml" f.1 = true := by
  have hp : f ∈ files.filter (fun g => globMatch pre ".yaml" g.1) :=
    (List.perm_insertionSort fileLe _).mem_iff.mp h
  exact ⟨(List.mem_filter.mp hp).1, (List.mem_filter.mp hp).2⟩

end InfisicalReconciler

open InfisicalReconciler in
/-- Claim C3 (amended): dry-run skips exactly the remote-command
construction steps of each apply method; whenever those steps cannot raise —
for every matched role file the command of `apply_project_role`, for every
matched identity file the command of `apply_identity`, and for every matched
binding file the per-path commands of `apply_binding` are constructible —
the dry-run reconciliation populates `applied`/`failed` (and the overall
result) exactly as the apply-mode reconciliation does.  (The counterexample
shows the two modes diverge without these conditions.) -/
theorem C3_dry_run_faithful (p : String) (files : List (String × Val))
    (h1 : ∀ f ∈ files, globMatch "ProjectRole_" ".yaml" f.1 = true → roleApplyOk p f.2 = true)
    (h2 : ∀ f ∈ files, globMatch "identity_" ".yaml" f.1 = true → identApplyOk p f.2 = true)
    (h3 : ∀ f ∈ files, globMatch "binding_" ".yaml" f.1 = true → bindApplyOk p f.2 = true) :
    InfisicalReconciler.reconcile p true (some files)
      = InfisicalReconciler.reconcile p false (some files) := by
  show (let st1 := runStage (apply_project_role p true) (stageFiles "ProjectRole_" files) ⟨[], []⟩
        let st2 := runStage (apply_identity p true) (stageFiles "identity_" files) st1
        let st3 := runStage (apply_binding p true) (stageFiles "binding_" files) st2
        (st3, st3.failed.isEmpty)) = _
  have e1 : runStage (apply_project_role p true) (stageFiles "ProjectRole_" files) ⟨[], []⟩
      = runStage (apply_project_role p false) (stageFiles "ProjectRole_" files) ⟨[], []⟩ :=
    runStage_congr _ _ _ _ (fun f hf s => by
      obtain ⟨hmem, hglob⟩ := mem_stageFiles _ _ _ hf
      exact apply_project_role_modes p f.1 f.2 s (h1 f hmem hglob))
  have e2 : ∀ st, runStage (apply_identity p true) (stageFiles "identity_" files) st
      = runStage (apply_identity p false) (stageFiles "identity_" files) st :=
    fun st => runStage_congr _ _ _ _ (fun f hf s => by
      obtain ⟨hmem, hglob⟩ := mem_stageFiles _ _ _ hf
      exact apply_identity_modes p f.1 f.2 s (h2 f hmem hglob))
  have e3 : ∀ st, runStage (apply_binding p true) (stageFiles "binding_" files) st
      = runStage (apply_binding p false) (stageFiles "binding_" files) st :=
    fun st => runStage_congr _ _ _ _ (fun f hf s => by
      obtain ⟨hmem, hglob⟩ := mem_stageFiles _ _ _ hf
      exact apply_binding_modes p f.1 f.2 s (h3 f hmem hglob))
  simp only [InfisicalReconciler.reconcile, e1, e2, e3]

open InfisicalReconciler in
/-- Witness for C3: on a directory holding one role, one identity and one
binding in the shapes the reconciler itself reads, dry-run and apply mode
produce identical results. -/
theorem C3_dry_run_faithful_witness :
    InfisicalReconciler.reconcile "p" true (some filesW)
      = InfisicalReconciler.reconcile "p" false (some filesW) :=
  C3_dry_run_faithful "p" filesW (by decide) (by decide) (by decide)

namespace InfisicalReconciler

theorem apply_project_role_record (p : String) (d : Bool) (fname : String) (v : Val)
    (st : RState) :
    ((apply_project_role p d fname v st).applied.length
        + (apply_project_role p d fname v st).failed.length
      = st.applied.length + st.failed.length + 1)
    ∧ st.applied <+: (apply_project_role p d fname v st).applied
    ∧ st.failed <+: (apply_project_role p d fname v st).failed := by
  cases hh : roleHead v with
  | none => simp [apply_project_role, hh, List.prefix_append]; omega
  | some name =>
    cases d with
    | true => simp [apply_project_role, hh, List.prefix_append]; omega
    | false =>
      cases hc : roleCmd p name v with
      | none => simp [apply_project_role, hh, hc, List.prefix_append]; omega
      | some c => simp [apply_project_role, hh, hc, List.prefix_append]; omega

theorem apply_identity_record (p : String) (d : Bool) (fname : String) (v : Val)
    (st : RState) :
    ((apply_identity p d fname v st).applied.length
        + (apply_identity p d fname v st).failed.length
      = st.applied.length + st.failed.length + 1)
    ∧ st.applied <+: (apply_identity p d fname v st).applied
    ∧ st.failed <+: (apply_identity p d fname v st).failed := by
  cases hh : identHead v with
  | none => simp [apply_identity, hh, List.prefix_append]; omega
  | some nv =>
    obtain ⟨name, envv⟩ := nv
    cases d with
    | true => simp [apply_identity, hh, List.prefix_append]; omega
    | false =>
      cases hc : identCmd p name envv v with
      | none => simp [apply_identity, hh, hc, List.prefix_append]; omega
      | some c => simp [apply_identity, hh, hc, List.prefix_append]; omega

theorem apply_binding_record (p : String) (d : Bool) (fname : String) (v : Val)
    (st : RState) :
    ((apply_binding p d fname v st).applied.length
        + (apply_binding p d fname v st).failed.length
      = st.applied.length + st.failed.length + 1)
    ∧ st.applied <+: (apply_binding p d fname v st).applied
    ∧ st.failed <+: (apply_binding p d fname v st).failed := by
  cases hh : bindHead v with
  | none => simp [apply_binding, hh, List.prefix_append]; omega
  | some nv =>
    obtain ⟨name, identity, role⟩ := nv
    cases d with
    | true => simp [apply_binding, hh, List.prefix_append]; omega
    | false =>
      cases hc : bindCmds p identity role v with
      | none => simp [apply_binding, hh, hc, List.prefix_append]; omega
      | some c => simp [apply_binding, hh, hc, List.prefix_append]; omega

theorem runStage_record (step : String → Val → RState → RState)
    (files : List (String × Val)) (st : RState)
    (hstep : ∀ fname v s,
      ((step fname v s).applied.length + (step fname v s).failed.length
        = s.applied.length + s.failed.length + 1)
      ∧ s.applied <+: (step fname v s).applied ∧ s.failed <+: (step fname v s).failed) :
    ((runStage step files st).applied.length + (runStage step files st).failed.length
      = st.applied.length + st.failed.length + files.length)
    ∧ st.applied <+: (runStage step files st).applied
    ∧ st.failed <+: (runStage step files st).failed := by
  induction files generalizing st with
  | nil => exact ⟨by simp [runStage], List.prefix_rfl, List.prefix_rfl⟩
  | cons f rest ih =>
    have hstep1 := hstep f.1 f.2 st
    have hrest := ih (step f.1 f.2 st)
    refine ⟨?_, ?_, ?_⟩
    · show (runStage step rest (step f.1 f.2 st)).applied.length
          + (runStage step rest (step f.1 f.2 st)).failed.length = _
      rw [hrest.1]
      simp only [List.length_cons]
      omega
    · exact hstep1.2.1.trans hrest.2.1
    · exact hstep1.2.2.trans hrest.2.2

end InfisicalReconciler

open InfisicalReconciler in
/-- Claim C8: per-resource failures are isolated: every apply method only
ever appends (never removes) entries of `applied` and `failed`; every
resource visited by the reconciliation contributes exactly one record, so
all resources in the trace are processed even when some fail (applied and
failed counts sum to the trace length); and with the artifacts directory
present the overall result is success iff the failed list is empty. -/
theorem C8_error_isolation (p : String) (d : Bool) (files : List (String × Val)) :
    ((InfisicalReconciler.reconcile p d (some files)).2 = true
       ↔ (InfisicalReconciler.reconcile p d (some files)).1.failed = [])
    ∧ (InfisicalReconciler.reconcile p d (some files)).1.applied.length
        + (InfisicalReconciler.reconcile p d (some files)).1.failed.length
        = (reconcileTrace files).length
    ∧ (∀ fname v st, st.applied <+: (apply_project_role p d fname v st).applied
        ∧ st.failed <+: (apply_project_role p d fname v st).failed)
    ∧ (∀ fname v st, st.applied <+: (apply_identity p d fname v st).applied
        ∧ st.failed <+: (apply_identity p d fname v st).failed)
    ∧ (∀ fname v st, st.applied <+: (apply_binding p d fname v st).applied
        ∧ st.failed <+: (apply_binding p d fname v st).failed) := by
  have r1 := runStage_record (apply_project_role p d) (stageFiles "ProjectRole_" files)
    ⟨[], []⟩ (fun fname v s => apply_project_role_record p d fname v s)
  have r2 := runStage_record (apply_identity p d) (stageFiles "identity_" files)
    (runStage (apply_project_role p d) (stageFiles "ProjectRole_" files) ⟨[], []⟩)
    (fun fname v s => apply_identity_record p d fname v s)
  have r3 := runStage_record (apply_binding p d) (stageFiles "binding_" files)
    (runStage (apply_identity p d) (stageFiles "identity_" files)
      (runStage (apply_project_role p d) (stageFiles "ProjectRole_" files) ⟨[], []⟩))
    (fun fname v s => apply_binding_record p d fname v s)
  refine ⟨?_, ?_, ?_, ?_, ?_⟩
  · simp only [InfisicalReconciler.reconcile]
    exact List.isEmpty_iff
  · have h1 := r1.1
    have h2 := r2.1
    have h3 := r3.1
    simp only [List.length_nil] at h1
    simp only [InfisicalReconciler.reconcile, reconcileTrace, List.length_append,
      List.length_map]
    omega
  · exact fun fname v st => (apply_project_role_record p d fname v st).2
  · exact fun fname v st => (apply_identity_record p d fname v st).2
  · exact fun fname v st => (apply_binding_record p d fname v st).2

theorem charsLe_total : ∀ l₁ l₂ : List Char, charsLe l₁ l₂ = true ∨ charsLe l₂ l₁ = true
  | [], l₂ => Or.inl rfl
  | a :: as, [] => Or.inr rfl
  | a :: as, b :: bs => by
    rcases lt_trichotomy a b with hab | rfl | hba
    · exact Or.inl (by simp [charsLe, hab])
    · rcases charsLe_total as bs with h | h
      · exact Or.inl (by simp [charsLe, lt_irrefl, h])
      · exact Or.inr (by simp [charsLe, lt_irrefl, h])
    · exact Or.inr (by simp [charsLe, hba])

theorem charsLe_trans : ∀ l₁ l₂ l₃ : List Char,
    charsLe l₁ l₂ = true → charsLe l₂ l₃ = true → charsLe l₁ l₃ = true
  | [], _, _, _, _ => rfl
  | a :: as, [], l₃, h12, _ => by simp [charsLe] at h12
  | a :: as, b :: bs, [], _, h23 => by simp [charsLe] at h23
  | a :: as, b :: bs, c :: cs, h12, h23 => by
    simp only [charsLe] at h12 h23 ⊢
    rcases lt_trichotomy a b with hab | rfl | hba
    · rcases lt_trichotomy b c with hbc | rfl | hcb
      · simp [lt_trans hab hbc]
      · simp [hab]
      · rw [if_neg (fun h => lt_asymm h hcb), if_pos hcb] at h23
        exact absurd h23 (by simp)
    · rcases lt_trichotomy a c with hac | rfl | hca
      · simp [hac]
      · simp only [lt_irrefl, if_false] at h12 h23 ⊢
        exact charsLe_trans as bs cs h12 h23
      · rw [if_neg (fun h => lt_asymm h hca), if_pos hca] at h23
        exact absurd h23 (by simp)
    · rw [if_neg (fun h => lt_asymm h hba), if_pos hba] at h12
      exact absurd h12 (by simp)

theorem charsLe_lex : ∀ l₁ l₂ : List Char,
    charsLe l₁ l₂ = true → l₁ = l₂ ∨ List.Lex (· < ·) l₁ l₂
  | [], [], _ => Or.inl rfl
  | [], b :: bs, _ => Or.inr List.Lex.nil
  | a :: as, [], h => by simp [charsLe] at h
  | a :: as, b :: bs, h => by
    simp only [charsLe] at h
    rcases lt_trichotomy a b with hab | rfl | hba
    · exact Or.inr (List.Lex.rel hab)
    · simp only [lt_irrefl, if_false] at h
      rcases charsLe_lex as bs h with rfl | hl
      · exact Or.inl rfl
      · exact Or.inr (List.Lex.cons hl)
    · rw [if_neg (fun h2 => lt_asymm h2 hba), if_pos hba] at h
      exact absurd h (by simp)

/-- The model's lexicographic comparison agrees with the `≤` of `String`. -/
theorem charsLe_le (a b : String) (h : charsLe a.toList b.toList = true) : a ≤ b := by
  rw [String.le_iff_toList_le]
  rcases charsLe_lex a.toList b.toList h with he | hl
  · exact le_of_eq he
  · exact le_of_lt hl

open InfisicalReconciler in
theorem stageFiles_sorted (pre : String) (files : List (String × Val)) :
    List.Sorted (· ≤ ·) ((stageFiles pre files).map Prod.fst) := by
  haveI : IsTotal (String × Val) fileLe :=
    ⟨fun a b => charsLe_total a.1.toList b.1.toList⟩
  haveI : IsTrans (String × Val) fileLe :=
    ⟨fun a b c h1 h2 => charsLe_trans a.1.toList b.1.toList c.1.toList h1 h2⟩
  have hs : List.Sorted fileLe (stageFiles pre files) :=
    List.sorted_insertionSort fileLe _
  exact List.Pairwise.map Prod.fst (fun a b h => charsLe_le a.1 b.1 h) hs

namespace InfisicalReconciler

theorem reconcileTrace_kind (files : List (String × Val)) (k : Nat)
    (hk : k < (reconcileTrace files).length) :
    ((reconcileTrace files).get ⟨k, hk⟩).1
      = if k < (stageFiles "ProjectRole_" files).length then StageKind.role
        else if k < (stageFiles "ProjectRole_" files).length
            + (stageFiles "identity_" files).length then StageKind.identity
        else StageKind.binding := by
  have hk' : k < (reconcileTrace files).length := hk
  simp only [reconcileTrace, List.length_append, List.length_map] at hk'
  rw [List.get_eq_getElem]
  by_cases h1 : k < (stageFiles "ProjectRole_" files).length
  · rw [if_pos h1]
    show ((((stageFiles "ProjectRole_" files).map (fun f => (StageKind.role, f.1))
        ++ (stageFiles "identity_" files).map (fun f => (StageKind.identity, f.1)))
        ++ (stageFiles "binding_" files).map (fun f => (StageKind.binding, f.1)))[k]).1 = _
    rw [List.getElem_append_left (by simp [List.length_append, List.length_map]; omega),
      List.getElem_append_left (by simp [List.length_map]; omega)]
    simp [List.getElem_map]
  · rw [if_neg h1]
    by_cases h2 : k < (stageFiles "ProjectRole_" files).length
        + (stageFiles "identity_" files).length
    · rw [if_pos h2]
      show ((((stageFiles "ProjectRole_" files).map (fun f => (StageKind.role, f.1))
          ++ (stageFiles "identity_" files).map (fun f => (StageKind.identity, f.1)))
          ++ (stageFiles "binding_" files).map (fun f => (StageKind.binding, f.1)))[k]).1 = _
      rw [List.getElem_append_left (by simp [List.length_append, List.length_map]; omega),
        List.getElem_append_right (by simp [List.length_map]; omega)]
      simp [List.getElem_map]
    · rw [if_neg h2]
      show ((((stageFiles "ProjectRole_" files).map (fun f => (StageKind.role, f.1))
          ++ (stageFiles "identity_" files).map (fun f => (StageKind.identity, f.1)))
          ++ (stageFiles "binding_" files).map (fun f => (StageKind.binding, f.1)))[k]).1 = _
      rw [List.getElem_append_right (by simp [List.length_append, List.length_map]; omega)]
      simp [List.getElem_map]

end InfisicalReconciler

open InfisicalReconciler in
/-- Claim C7: in every reconciliation trace, every ProjectRole application
precedes every MachineIdentity application, every MachineIdentity
application precedes every ProjectBinding application, and within each stage
the matched files are processed in lexicographic (sorted) order of their
file names. -/
theorem C7_stage_order (files : List (String × Val)) (i j : Nat)
    (hi : i < (reconcileTrace files).length) (hj : j < (reconcileTrace files).length) :
    (((reconcileTrace files).get ⟨i, hi⟩).1 = StageKind.role →
      ((reconcileTrace files).get ⟨j, hj⟩).1 = StageKind.identity → i < j)
    ∧ (((reconcileTrace files).get ⟨i, hi⟩).1 = StageKind.identity →
      ((reconcileTrace files).get ⟨j, hj⟩).1 = StageKind.binding → i < j)
    ∧ List.Sorted (· ≤ ·) ((stageFiles "ProjectRole_" files).map Prod.fst)
    ∧ List.Sorted (· ≤ ·) ((stageFiles "identity_" files).map Prod.fst)
    ∧ List.Sorted (· ≤ ·) ((stageFiles "binding_" files).map Prod.fst) := by
  have hki := reconcileTrace_kind files i hi
  have hkj := reconcileTrace_kind files j hj
  refine ⟨?_, ?_, stageFiles_sorted _ _, stageFiles_sorted _ _, stageFiles_sorted _ _⟩
  · intro hri hij
    rw [hri] at hki
    rw [hij] at hkj
    by_cases h1 : i < (stageFiles "ProjectRole_" files).length
    · by_cases h2 : j < (stageFiles "ProjectRole_" files).length
      · rw [if_pos h2] at hkj
        exact absurd hkj (by decide)
      · omega
    · rw [if_neg h1] at hki
      by_cases h2 : i < (stageFiles "ProjectRole_" files).length
          + (stageFiles "identity_" files).length
      · rw [if_pos h2] at hki
        exact absurd hki (by decide)
      · rw [if_neg h2] at hki
        exact absurd hki (by decide)
  · intro hii hbj
    rw [hii] at hki
    rw [hbj] at hkj
    by_cases h1 : i < (stageFiles "ProjectRole_" files).length
    · rw [if_pos h1] at hki
      exact absurd hki (by decide)
    · rw [if_neg h1] at hki
      by_cases h2 : i < (stageFiles "ProjectRole_" files).length
          + (stageFiles "identity_" files).length
      · by_cases h3 : j < (stageFiles "ProjectRole_" files).length
        · rw [if_pos h3] at hkj
          exact absurd hkj (by decide)
        · rw [if_neg h3] at hkj
          by_cases h4 : j < (stageFiles "ProjectRole_" files).length
              + (stageFiles "identity_" files).length
          · rw [if_pos h4] at hkj
            exact absurd hkj (by decide)
          · omega
      · rw [if_neg h2] at hki
        exact absurd hki (by decide)

theorem identitySteps_extends (ident : Val) (acc : List FileWrite) :
    acc <+: (identitySteps ident acc).1 := by
  cases ident with
  | dict e =>
    cases hn : lookupKey e "name" with
    | none => simp [identitySteps, hn]
    | some name =>
      cases hp : dictGet e "permissions" (.dict []) with
      | dict pe => simp [identitySteps, hn, hp, List.append_assoc, List.prefix_append]
      | str s => simp [identitySteps, hn, hp, List.prefix_append]
      | int n => simp [identitySteps, hn, hp, List.prefix_append]
      | bool b => simp [identitySteps, hn, hp, List.prefix_append]
      | null => simp [identitySteps, hn, hp, List.prefix_append]
      | list l => simp [identitySteps, hn, hp, List.prefix_append]
  | str s => simp [identitySteps]
  | int n => simp [identitySteps]
  | bool b => simp [identitySteps]
  | null => simp [identitySteps]
  | list l => simp [identitySteps]

theorem renderLoop_extends (step : Val → List FileWrite → List FileWrite × Bool)
    (hstep : ∀ v acc, acc <+: (step v acc).1) :
    ∀ (l : List Val) (acc : List FileWrite), acc <+: (renderLoop step l acc).1
  | [], acc => List.prefix_rfl
  | v :: rest, acc => by
    cases hs : step v acc with
    | mk acc2 b =>
      have h1 : acc <+: acc2 := by
        have := hstep v acc
        rw [hs] at this
        exact this
      cases b with
      | true =>
        simp only [renderLoop, hs]
        exact h1.trans (renderLoop_extends step hstep rest acc2)
      | false => simp only [renderLoop, hs]; exact h1

theorem renderLoop_binding_mem (ws : List FileWrite) :
    ∀ (l : List Val) (acc : List FileWrite),
      renderLoop identitySteps l acc = (ws, true) →
      ∀ ident ∈ l, ∀ (e : List (String × Val)), ident = .dict e →
      ∀ (name : Val), lookupKey e "name" = some name →
      ∃ w ∈ ws, w.name = "binding_" ++ pyStr name ++ ".yaml"
        ∧ (w.obj.getItem "spec").bind (fun s => s.getItem "project_role")
          = some (dictGet e "project_role" .null)
  | [], acc, h, ident, hm, e, hide, name, hn => absurd hm (List.not_mem_nil ident)
  | v :: rest, acc, h, ident, hm, e, hide, name, hn => by
    cases hs : identitySteps v acc with
    | mk acc2 b =>
      rw [renderLoop, hs] at h
      cases b with
      | false =>
        have h2 : (acc2, false) = (ws, true) := h
        exact absurd (congrArg Prod.snd h2) (by simp)
      | true =>
        have h2 : renderLoop identitySteps rest acc2 = (ws, true) := h
        rcases List.mem_cons.mp hm with heq | hm2
        · -- the head element is the identity in question
          subst heq
          subst hide
          simp only [identitySteps, hn] at hs
          cases hp : dictGet e "permissions" (.dict []) with
          | dict pe =>
            rw [hp] at hs
            have hw : (write_yaml ("binding_" ++ pyStr name ++ ".yaml") (.dict
                [("apiVersion", .str "infisical.verlyn13.dev/v1"),
                 ("kind", .str "ProjectBinding"),
                 ("metadata", .dict [("identity", name),
                                     ("environment", dictGet e "env" .null)]),
                 ("spec", .dict [("project_role", dictGet e "project_role" .null),
                                 ("permissions", .dict
                                   [("read_paths", dictGet pe "read_paths" (.list [])),
                                    ("write_paths", dictGet pe "write_paths" (.list []))])])]))
                ∈ acc2 := by
              have he : acc2 = _ ++ [_] := (congrArg Prod.fst hs).symm
              rw [he]
              exact List.mem_append_right _ (List.mem_singleton.mpr rfl)
            have hsub : acc2 <+: ws := by
              have hpre := renderLoop_extends identitySteps identitySteps_extends rest acc2
              rw [h2] at hpre
              exact hpre
            exact ⟨_, hsub.subset hw, rfl, rfl⟩
          | str s =>
            rw [hp] at hs
            exact absurd (congrArg Prod.snd hs) (by simp)
          | int n =>
            rw [hp] at hs
            exact absurd (congrArg Prod.snd hs) (by simp)
          | bool b2 =>
            rw [hp] at hs
            exact absurd (congrArg Prod.snd hs) (by simp)
          | null =>
            rw [hp] at hs
            exact absurd (congrArg Prod.snd hs) (by simp)
          | list l2 =>
            rw [hp] at hs
            exact absurd (congrArg Prod.snd hs) (by simp)
        · exact renderLoop_binding_mem ws rest acc2 h2 ident hm2 e hide name hn

/-- Claim C1 (amended): the renderer performs no referential-integrity check
and knows no `RenderError`: whenever rendering succeeds it emits, for every
identity of the journal, a `ProjectBinding` artifact whose
`spec.project_role` is copied verbatim from the identity — also when that
slug names no `ProjectRole` rendered in the same pass (the counterexample
shows a successful render with a dangling slug and no role at all). -/
theorem C1_no_integrity_check (journal : Val) (arts : List (String × Val))
    (idents : List Val) (ident : Val) (e : List (String × Val)) (name : Val)
    (hr : renderArtifacts journal = some arts)
    (hi : journal.getItem "identities" = some (.list idents))
    (hm : ident ∈ idents) (hide : ident = .dict e)
    (hn : lookupKey e "name" = some name) :
    ∃ v, ("binding_" ++ pyStr name ++ ".yaml", v) ∈ arts
      ∧ (v.getItem "spec").bind (fun s => s.getItem "project_role")
        = some (dictGet e "project_role" .null) := by
  cases journal with
  | dict je =>
    have hi2 : lookupKey je "identities" = some (.list idents) := hi
    simp only [renderArtifacts, renderJournalWrites, hi2] at hr
    cases hpr : pyIter (dictGet je "project_roles" (.list [])) with
    | none => rw [hpr] at hr; exact absurd hr (by simp)
    | some roles =>
      simp only [hpr] at hr
      cases hrl : renderLoop roleStep roles [] with
      | mk accR bR =>
        simp only [hrl] at hr
        cases bR with
        | false => exact absurd hr (by simp)
        | true =>
          simp only [show pyIter (Val.list idents) = some idents from rfl] at hr
          cases hil : renderLoop identitySteps idents accR with
          | mk ws b2 =>
            simp only [hil] at hr
            cases b2 with
            | false => exact absurd hr (by simp)
            | true =>
              have harts : ws.map (fun w => (w.name, w.obj)) = arts := by
                simpa using hr
              obtain ⟨w, hwmem, hwname, hwobj⟩ :=
                renderLoop_binding_mem ws idents accR hil ident hm e hide name hn
              refine ⟨w.obj, ?_, hwobj⟩
              rw [← harts, ← hwname]
              exact List.mem_map_of_mem (fun w => (w.name, w.obj)) hwmem
  | str s => exact absurd hi (by simp [Val.getItem])
  | int n => exact absurd hi (by simp [Val.getItem])
  | bool b => exact absurd hi (by simp [Val.getItem])
  | null => exact absurd hi (by simp [Val.getItem])
  | list l => exact absurd hi (by simp [Val.getItem])

/-- Witness for C1: on the dangling-reference journal, the binding for
ci-bot is emitted with `spec.project_role = "missing"` although no role is
rendered at all. -/
theorem C1_no_integrity_check_witness :
    ∃ v, ("binding_ci-bot.yaml", v) ∈ (renderArtifacts journalC1).getD []
      ∧ (v.getItem "spec").bind (fun s => s.getItem "project_role")
        = some (.str "missing") :=
  C1_no_integrity_check journalC1 ((renderArtifacts journalC1).getD [])
    [.dict identC1e] (.dict identC1e) identC1e (.str "ci-bot")
    rfl rfl (List.mem_singleton.mpr rfl) rfl rfl

/-- Witness for C7: on a directory with one file of each kind, a Role
application (index 0) precedes the Identity application (index 1), which
precedes the Binding application (index 2). -/
theorem C7_stage_order_witness : (0 : Nat) < 1 ∧ (1 : Nat) < 2 :=
  ⟨(C7_stage_order filesW 0 1 (by decide) (by decide)).1 (by decide) (by decide),
   (C7_stage_order filesW 1 2 (by decide) (by decide)).2.1 (by decide) (by decide)⟩
